import Mathlib

/-!
Verification development for the ai-receptionist relay (server.mjs and its
variants under src/unnamed).  The JavaScript source is shallowly embedded:
pure audio-codec functions become Lean functions on `Nat` (bytes) and `Int`
(PCM16 samples, JS numbers), the per-connection WebSocket handlers become
explicit state machines (`step : State → Event → State × List Output`), and
JavaScript strings are modelled as `String` with list-of-char helpers for
the exact semantics of `split` / `trim` / `toLowerCase`.

Machine-integer conventions used throughout:
  * a Twilio media payload is a list of μ-law bytes (`List Nat`, each < 256;
    the base64 transport encoding is elided, it is a bijection on byte
    strings and none of the claims concern it);
  * a PCM16 buffer is a `List Int`; storing a JS number into an
    `Int16Array` wraps it to 16-bit two's complement, modelled by `toInt16`;
  * JS 32-bit bitwise operations on possibly negative numbers are modelled
    by reducing mod 2^32 first (`jsAnd`), and the arithmetic right shift
    `x >> k` is floor division (`Int.fdiv`).
-/

/- ================= Audio codec (μ-law helpers) ================== -/

/-- Int16Array element storage: wrap an arbitrary JS integer to 16-bit
two's complement, as `out[i] = v` does on an `Int16Array`. -/
def toInt16 (x : Int) : Int := (x + 32768).emod 65536 - 32768

/-- JS `s & mask` for a (possibly negative) 32-bit integer `s` and a
non-negative mask below 2^31: reduce to the two's-complement bit pattern
mod 2^32, then take the bitwise and. -/
def jsAnd (x : Int) (mask : Nat) : Nat := (x.emod 4294967296).toNat &&& mask

/-- mulawDecode from server.mjs (all variants):
`mu = ~mu & 0xff; sign = mu & 0x80; exponent = (mu & 0x70) >> 4;
mantissa = mu & 0x0f; sample = ((mantissa << 4) + 8) << (exponent + 3);
sample -= 0x84; return sign ? -sample : sample;`
The argument is a μ-law byte (0..255); `~mu & 0xff` is `255 - mu` there. -/
def mulawDecode (mu : Nat) : Int :=
  let m := 255 - mu % 256
  let sign := m &&& 0x80
  let exponent := (m &&& 0x70) >>> 4
  let mantissa := m &&& 0x0f
  let sample : Int := (((mantissa <<< 4) + 8) <<< (exponent + 3) : Nat) - 0x84
  if sign ≠ 0 then -sample else sample

/-- decodeMuLawBuffer: decode each byte and store it into an `Int16Array`
(which wraps to 16-bit two's complement). -/
def decodeMuLawBuffer : List Nat → List Int
  | [] => []
  | b :: rest => toInt16 (mulawDecode b) :: decodeMuLawBuffer rest

/-- Exponent search loop of linear2ulaw:
`for (expMask = 0x4000; (sample & expMask) === 0 && exponent > 0;
exponent--, expMask >>= 1) {}` starting from `exponent = 7`. -/
def ulawExpLoop (s : Int) : Nat → Nat → Nat
  | 0, _ => 0
  | e + 1, mask => if jsAnd s mask = 0 then ulawExpLoop s e (mask >>> 1) else e + 1

/-- linear2ulaw from server.mjs: sign from bit 7 of `sample >> 8`, negate,
clip at 32635, add bias 0x84, find the exponent, extract the mantissa and
return the complemented byte.  `~x & 0xff` on a byte value is `255 - x`. -/
def linear2ulaw (sample : Int) : Nat :=
  let sign := jsAnd (sample.fdiv 256) 0x80
  let s1 : Int := if sign ≠ 0 then -sample else sample
  let s2 : Int := if s1 > 32635 then 32635 else s1
  let s3 : Int := s2 + 0x84
  let exponent := ulawExpLoop s3 7 0x4000
  let shift := if exponent = 0 then 4 else exponent + 3
  let mantissa := jsAnd (s3.fdiv ((2 : Int) ^ shift)) 0x0f
  255 - (sign ||| (exponent <<< 4) ||| mantissa)

/-- encodeMuLawBufferFromPCM: encode each 16-bit sample to a μ-law byte. -/
def encodeMuLawBufferFromPCM (l : List Int) : List Nat := l.map linear2ulaw

/-- up8kTo24k: zero-order-hold upsampling, each input sample written three
times (`out[i*3] = out[i*3+1] = out[i*3+2] = int16[i]`). -/
def up8kTo24k (l : List Int) : List Int := l.flatMap fun s => [s, s, s]

/-- down24kTo8k: keep every third sample starting at index 0; the output
has `floor (n / 3)` samples. -/
def down24kTo8k : List Int → List Int
  | a :: _ :: _ :: rest => a :: down24kTo8k rest
  | _ => []

/-- ulawSilenceB64: a 20 ms keepalive frame, 160 μ-law bytes 0xFF. -/
def ulawSilence : List Nat := List.replicate 160 0xFF

/- ============ JS string semantics (split / trim / lower) ============ -/

/-- Whitespace test used by JS `trim` and the `\s` class (ASCII range). -/
def isJsSpace (c : Char) : Bool := c.isWhitespace

/-- JS `String.prototype.trim` on a list of characters. -/
def jsTrimL (l : List Char) : List Char :=
  ((l.dropWhile isJsSpace).reverse.dropWhile isJsSpace).reverse

/-- JS `s.trim()`. -/
def jsTrim (s : String) : String := String.mk (jsTrimL s.data)

/-- JS `s.toLowerCase()` (ASCII). -/
def jsLower (s : String) : String := String.mk (s.data.map Char.toLower)

/-- JS `s.split(sep)` with a one-character separator, keeping empty pieces:
`"" ↦ [""]`, `";" ↦ ["", ""]`, `"a;b" ↦ ["a", "b"]`. -/
def jsSplitL (sep : Char) : List Char → List (List Char)
  | [] => [[]]
  | c :: rest =>
    if c = sep then [] :: jsSplitL sep rest
    else
      match jsSplitL sep rest with
      | [] => [[c]]
      | g :: gs => (c :: g) :: gs

/-- JS `s.split(sep)` on `String`. -/
def jsSplit (s : String) (sep : Char) : List String :=
  (jsSplitL sep s.data).map String.mk

/-- Case-insensitive character comparison against a lowercase letter. -/
def lcEq (c d : Char) : Bool := c.toLower = d

/-- Word character for the regex `\b` boundary: `[A-Za-z0-9_]`. -/
def isWordChar (c : Char) : Bool := c.isAlphanum || c = '_'

/-- Test `/^TRANSFER$/i` on an already-trimmed line. -/
def isTransferLine (l : String) : Bool := jsLower l = "transfer"

/-- Test `/^DONE$/i` on an already-trimmed line. -/
def isDoneLine (l : String) : Bool := jsLower l = "done"

/-- Test `/^LEAD\b/i`: the line starts with `LEAD` case-insensitively and
the next character, if any, is not a word character. -/
def isLeadLine (l : String) : Bool :=
  match l.data with
  | c1 :: c2 :: c3 :: c4 :: rest =>
    lcEq c1 'l' && lcEq c2 'e' && lcEq c3 'a' && lcEq c4 'd' &&
      (match rest with
       | [] => true
       | c :: _ => !(isWordChar c))
  | _ => false

/-- JS `line.replace(/^LEAD\s*/i, '')`: if the line starts with `LEAD`
case-insensitively (no boundary required by this regex), drop it and any
following whitespace; otherwise return the line unchanged. -/
def stripLeadTag (s : String) : String :=
  match s.data with
  | c1 :: c2 :: c3 :: c4 :: rest =>
    if lcEq c1 'l' && lcEq c2 'e' && lcEq c3 'a' && lcEq c4 'd' then
      String.mk (rest.dropWhile isJsSpace)
    else s
  | _ => s

/- ===================== Lead record parsing ===================== -/

/-- A lead record: the JS object `out` / `st.lead`, a partial map from
field names to string values. -/
abbrev LeadMap := String → Option String

def leadEmpty : LeadMap := fun _ => none

/-- JS `out[k] = v`: overwrite semantics per field. -/
def leadSet (m : LeadMap) (k v : String) : LeadMap :=
  fun q => if q = k then some v else m q

/-- JS object spread `{ ...old, ...found }`: fields of `found` win. -/
def leadMerge (old found : LeadMap) : LeadMap :=
  fun q => match found q with
    | some v => some v
    | none => old q

/-- Body of the `body.split(';').forEach(pair => ...)` loop in
parseLeadLine: `const [k, v] = pair.split('='); if (!k) return;
out[k.trim().toLowerCase()] = (v || '').trim();`. -/
def leadSegStep (m : LeadMap) (seg : String) : LeadMap :=
  match jsSplit seg '=' with
  | [] => m
  | k :: rest => if k = "" then m else leadSet m (jsLower (jsTrim k)) (jsTrim (rest.headD ""))

/-- parseLeadLine from server.mjs (also inlined in the other variants):
strip the leading `LEAD`, split on `;` and fold each `key=value` pair into
an empty record. -/
def parseLeadLine (line : String) : LeadMap :=
  (jsSplit (stripLeadTag line) ';').foldl leadSegStep leadEmpty

/-- Byte-wise list comparison used by the substring search. -/
def startsWithL : List Char → List Char → Bool
  | [], _ => true
  | _ :: _, [] => false
  | a :: as, b :: bs => a = b && startsWithL as bs

/-- Substring occurrence test on character lists. -/
def containsSeq (needle : List Char) : List Char → Bool
  | [] => needle.isEmpty
  | c :: rest => startsWithL needle (c :: rest) || containsSeq needle rest

/-- Test `/(leak|flood|no heat|no ac|smoke|sparks|burning)/i` on a line:
case-insensitive substring search for any of the keywords. -/
def emergencyHit (line : String) : Bool :=
  let low := line.data.map Char.toLower
  ["leak", "flood", "no heat", "no ac", "smoke", "sparks", "burning"].any
    fun w => containsSeq w.data low

/- ==== Session machine V1: first server.mjs variant (lines 135-226) ====

Per-connection handler of `wss.on('connection', ...)` in the variant that
uses the shared global AI socket, a keepalive interval and no pending
queue.  Events are the socket callbacks; one event is processed atomically
(the Node event loop is single-threaded).  A `tick` event models one firing
of the keepalive `setInterval`; it can only fire while some interval is
active.  In this variant `keepAlive = setInterval(...)` on `start` is not
guarded by `if (!keepAlive)`, so a repeated `start` orphans the previous
interval, which keeps firing and can no longer be cleared: `orphans` counts
such intervals (their closures read the same per-connection variables). -/

structure SV1 where
  stopped : Bool
  callSid : String
  streamSid : String
  tracked : Bool
  orphans : Nat
  sentRealAudio : Bool
  twOpen : Bool
  aiReady : Bool
  aiOpen : Bool
deriving DecidableEq

inductive EV1 where
  | start (cs ss : String)
  | media (payload : List Nat)
  | stopEvt
  | twClose
  | gOpen
  | gClose
  | aiAudio (pcm24 : List Int)
  | aiText (delta : String)
  | tick
deriving DecidableEq

/-- Outputs of the V1 session.  `keepaliveFrame` and `audioFrame` are both
`{event:'media', streamSid, media:{payload}}` wire frames, tagged by the
code path that emitted them (keepalive interval vs AI audio delta). -/
inductive OV1 where
  | keepaliveFrame (sid : String) (payload : List Nat)
  | audioFrame (sid : String) (payload : List Nat)
  | aiAppend (chunk : List Int)
  | aiCommit
  | aiGreeting
  | redirectTransfer (sid : String)
  | redirectGoodbye (sid : String)
deriving DecidableEq

/-- Caller-audio transcoding pipeline: μ-law bytes, decoded into an
Int16Array, upsampled to 24 kHz (the base64 step is elided). -/
def transcodeIn (p : List Nat) : List Int := up8kTo24k (decodeMuLawBuffer p)

def initV1 : SV1 :=
  { stopped := false, callSid := "", streamSid := "", tracked := false, orphans := 0,
    sentRealAudio := false, twOpen := true, aiReady := false, aiOpen := false }

def stepV1 (s : SV1) : EV1 → SV1 × List OV1
  | .start cs ss =>
    let s' := { s with callSid := cs, streamSid := ss,
                       orphans := s.orphans + (if s.tracked then 1 else 0),
                       tracked := true }
    (s', if s.aiReady && s.aiOpen then [OV1.aiGreeting] else [])
  | .media p =>
    if s.aiReady && s.aiOpen && !s.stopped then
      (s, [OV1.aiAppend (transcodeIn p), OV1.aiCommit])
    else (s, [])
  | .stopEvt => ({ s with stopped := true, tracked := false }, [])
  | .twClose => ({ s with twOpen := false, tracked := false }, [])
  | .gOpen => ({ s with aiReady := true, aiOpen := true }, [])
  | .gClose => ({ s with aiReady := false, aiOpen := false }, [])
  | .aiAudio pcm24 =>
    if s.stopped then (s, [])
    else
      let payload := encodeMuLawBufferFromPCM (down24kTo8k pcm24)
      let s' := if !s.sentRealAudio && s.tracked
                then { s with tracked := false, sentRealAudio := true } else s
      if s.twOpen then (s', [OV1.audioFrame s.streamSid payload]) else (s', [])
  | .aiText delta =>
    if s.stopped then (s, [])
    else
      let line := jsTrim delta
      if isTransferLine line && s.callSid != "" then (s, [OV1.redirectTransfer s.callSid])
      else if isDoneLine line && s.callSid != "" then (s, [OV1.redirectGoodbye s.callSid])
      else (s, [])
  | .tick =>
    if (s.tracked || s.orphans != 0) && !s.sentRealAudio && !s.stopped && s.twOpen then
      (s, [OV1.keepaliveFrame s.streamSid ulawSilence])
    else (s, [])

def runV1 (s : SV1) : List EV1 → SV1 × List OV1
  | [] => (s, [])
  | e :: es =>
    let (s', o) := stepV1 s e
    let (s'', os) := runV1 s' es
    (s'', o ++ os)

/- ==== Session machine V2: second server.mjs variant (lines 239-532) ====

Per-call AI socket, `streams` / `calls` maps, `finalizeLeadAndNotify` on
stop and on socket close, full LEAD / TRANSFER / DONE / emergency parsing,
and media frames sent back WITHOUT a streamSid field. -/

structure CallSt where
  lead : LeadMap
  priority : Bool

def freshCall : CallSt := { lead := leadEmpty, priority := false }

structure SV2 where
  entry : Option String
  callsM : String → Option CallSt
  aiClosed : Bool

inductive EV2 where
  | start (cs : String)
  | media (payload : List Nat)
  | stopEvt
  | closeEvt
  | aiAudio (pcm24 : List Int)
  | aiText (delta : String)
deriving DecidableEq

inductive OV2 where
  | aiAppend (chunk : List Int)
  | aiCommit
  | mediaNoSid (payload : List Nat)
  | finalizeNotify (sid : String)
  | aiCloseFx
  | redirectTransfer (sid : String)
  | redirectGoodbye (sid : String)
deriving DecidableEq

def initV2 : SV2 := { entry := none, callsM := fun _ => none, aiClosed := false }

/-- One LEAD line applied to a call state:
`st.lead = { ...st.lead, ...parseLeadLine(line) }` and the sticky priority
update `if (String(found.priority || '').toLowerCase() === 'true')
st.priority = true`. -/
def applyLeadV2 (st : CallSt) (line : String) : CallSt :=
  let found := parseLeadLine line
  let st1 : CallSt := { lead := leadMerge st.lead found, priority := st.priority }
  if jsLower ((found "priority").getD "") = "true" then { st1 with priority := true } else st1

/-- Common body of the `stop` and socket-`close` handlers:
look up the stream entry, invoke finalizeLeadAndNotify when a call id is
known (it returns early when `calls` has no state for it), close the AI
socket (`aiCloseFx` is emitted only when that close has an effect, closing
an already-closed socket is a no-op), and delete the stream entry. -/
def termV2 (s : SV2) : SV2 × List OV2 :=
  let fin := match s.entry with
    | some cs => if cs != "" && (s.callsM cs).isSome then [OV2.finalizeNotify cs] else []
    | none => []
  let cfx := if s.aiClosed then [] else [OV2.aiCloseFx]
  ({ s with entry := none, aiClosed := true }, fin ++ cfx)

def stepV2 (s : SV2) : EV2 → SV2 × List OV2
  | .start cs =>
    if cs != "" then
      ({ s with entry := some cs,
                callsM := fun q => if q = cs then some ((s.callsM cs).getD freshCall)
                          else s.callsM q }, [])
    else (s, [])
  | .media p => (s, [OV2.aiAppend (transcodeIn p), OV2.aiCommit])
  | .stopEvt => termV2 s
  | .closeEvt => termV2 s
  | .aiAudio pcm24 => (s, [OV2.mediaNoSid (encodeMuLawBufferFromPCM (down24kTo8k pcm24))])
  | .aiText delta =>
    let line := jsTrim delta
    match s.entry with
    | none => (s, [])
    | some cs =>
      if cs = "" then (s, [])
      else
        let (s1, out1) :=
          if isLeadLine line then
            ({ s with callsM := fun q =>
                 if q = cs then some (applyLeadV2 ((s.callsM cs).getD freshCall) line)
                 else s.callsM q }, ([] : List OV2))
          else if isTransferLine line then (s, [OV2.redirectTransfer cs])
          else if isDoneLine line then (s, [OV2.redirectGoodbye cs])
          else (s, [])
        let s2 :=
          if emergencyHit line then
            { s1 with callsM := fun q =>
                if q = cs then some { (s1.callsM cs).getD freshCall with priority := true }
                else s1.callsM q }
          else s1
        (s2, out1)

def runV2 (s : SV2) : List EV2 → SV2 × List OV2
  | [] => (s, [])
  | e :: es =>
    let (s', o) := stepV2 s e
    let (s'', os) := runV2 s' es
    (s'', o ++ os)

/-- Lead-field lookup helper for stating properties of the V2 machine. -/
def leadOf (s : SV2) (cs k : String) : Option String :=
  match s.callsM cs with
  | some st => st.lead k
  | none => none

/-- Priority-flag lookup helper for the V2 machine. -/
def prioOf (s : SV2) (cs : String) : Bool :=
  match s.callsM cs with
  | some st => st.priority
  | none => false

/- ==== Session machine B: src/unnamed/part_003 second variant ====

Per-call AI socket with pending-audio queue, keepalive interval (guarded by
`if (!keepAlive)`), sentRealAudio cutover, streamSid-guarded audio sends,
and flush of the queue on AI `open`. -/

structure SB where
  stopped : Bool
  callSid : String
  streamSid : String
  keepAlive : Bool
  sentRealAudio : Bool
  twOpen : Bool
  aiReady : Bool
  aiOpen : Bool
  pending : List (List Int)
deriving DecidableEq

inductive EB where
  | start (cs ss : String)
  | media (payload : List Nat)
  | stopEvt
  | twClose
  | aiOpenEvt
  | aiCloseEvt
  | aiAudio (pcm24 : List Int)
  | aiText (delta : String)
  | tick
deriving DecidableEq

inductive OB where
  | keepaliveFrame (sid : String) (payload : List Nat)
  | audioFrame (sid : String) (payload : List Nat)
  | aiConfig
  | aiGreeting
  | aiAppend (chunk : List Int)
  | aiCommit
  | redirectTransfer (sid : String)
  | redirectGoodbye (sid : String)
deriving DecidableEq

def initB : SB :=
  { stopped := false, callSid := "", streamSid := "", keepAlive := false,
    sentRealAudio := false, twOpen := true, aiReady := false, aiOpen := false, pending := [] }

def stepB (s : SB) : EB → SB × List OB
  | .start cs ss =>
    ({ s with callSid := cs, streamSid := ss, keepAlive := true }, [])
  | .media p =>
    let chunk := transcodeIn p
    if s.aiReady && s.aiOpen && !s.stopped then
      (s, [OB.aiAppend chunk, OB.aiCommit])
    else ({ s with pending := s.pending ++ [chunk] }, [])
  | .stopEvt =>
    ({ s with stopped := true, keepAlive := false, aiOpen := false }, [])
  | .twClose =>
    ({ s with twOpen := false, keepAlive := false, aiOpen := false }, [])
  | .aiOpenEvt =>
    let doFlush := !s.stopped && s.pending != []
    let flushOut := if doFlush then s.pending.flatMap (fun c => [OB.aiAppend c, OB.aiCommit])
                    else []
    ({ s with aiReady := true, aiOpen := true, pending := if doFlush then [] else s.pending },
     [OB.aiConfig] ++ (if !s.stopped then [OB.aiGreeting] else []) ++ flushOut)
  | .aiCloseEvt => ({ s with aiOpen := false }, [])
  | .aiAudio pcm24 =>
    if !s.stopped && s.streamSid != "" && s.twOpen then
      let payload := encodeMuLawBufferFromPCM (down24kTo8k pcm24)
      let s' := if !s.sentRealAudio && s.keepAlive
                then { s with keepAlive := false, sentRealAudio := true } else s
      (s', [OB.audioFrame s.streamSid payload])
    else (s, [])
  | .aiText delta =>
    let line := jsTrim delta
    if line = "" then (s, [])
    else if isTransferLine line && s.callSid != "" && !s.stopped then
      (s, [OB.redirectTransfer s.callSid])
    else if isDoneLine line && s.callSid != "" && !s.stopped then
      (s, [OB.redirectGoodbye s.callSid])
    else (s, [])
  | .tick =>
    if s.keepAlive && !s.stopped && s.twOpen && s.streamSid != "" && !s.sentRealAudio then
      (s, [OB.keepaliveFrame s.streamSid ulawSilence])
    else (s, [])

def runB (s : SB) : List EB → SB × List OB
  | [] => (s, [])
  | e :: es =>
    let (s', o) := stepB s e
    let (s'', os) := runB s' es
    (s'', o ++ os)

/- ==== Global AI connection manager: ensureGlobalAI (server.mjs 48-94) ==== -/

inductive ConnState where
  | connecting
  | opened
  | closed
deriving DecidableEq

structure GState where
  conn : Option ConnState
  aiReadyG : Bool
deriving DecidableEq

inductive GOut where
  | connectAttempt
deriving DecidableEq

/-- ensureGlobalAI: `if (globalAI && globalAI.readyState === 1) return;
aiReady = false; globalAI = connectRealtime();`.  `conn = none` models a
null `globalAI`; `some .opened` is readyState 1. -/
def ensureGlobalAI (s : GState) : GState × List GOut :=
  if s.conn = some ConnState.opened then (s, [])
  else ({ conn := some ConnState.connecting, aiReadyG := false }, [GOut.connectAttempt])

/-- The global close handler: clears the ready flag and schedules one
`ensureGlobalAI` invocation after the returned delay in milliseconds
(`setTimeout(ensureGlobalAI, 1000)`). -/
def onGlobalClose (s : GState) : GState × Nat :=
  ({ s with conn := some ConnState.closed, aiReadyG := false }, 1000)

/-- Invoke ensureGlobalAI n times in a row, counting connection attempts. -/
def ensureMany (s : GState) : Nat → GState × Nat
  | 0 => (s, 0)
  | n + 1 =>
    let (s', o) := ensureGlobalAI s
    let (s'', k) := ensureMany s' n
    (s'', o.length + k)

/- ============== Output and event classification helpers ============== -/

def isRealAudioB : OB → Bool
  | .audioFrame _ _ => true
  | _ => false

def isKeepaliveB : OB → Bool
  | .keepaliveFrame _ _ => true
  | _ => false

/-- Scanner for the temporal property "no keepalive frame is emitted at or
after the first real AI audio frame": the Boolean flag records whether a
real audio frame has already occurred in the scanned part. -/
def noKeepaliveAfterAudio : Bool → List OB → Bool
  | _, [] => true
  | b, o :: rest =>
    if b && isKeepaliveB o then false
    else noKeepaliveAfterAudio (b || isRealAudioB o) rest

/-- Chunks sent to the AI backend as `input_audio_buffer.append`, in order. -/
def appendsOf (l : List OB) : List (List Int) :=
  l.filterMap fun o => match o with
    | OB.aiAppend c => some c
    | _ => none

def isTransferOut : OV1 → Bool
  | .redirectTransfer _ => true
  | _ => false

def isFinalizeOut : OV2 → Bool
  | .finalizeNotify _ => true
  | _ => false

def isAiCloseOut : OV2 → Bool
  | .aiCloseFx => true
  | _ => false

def isStartEv : EV2 → Bool
  | .start _ => true
  | _ => false

def isTermEv : EV2 → Bool
  | .stopEvt => true
  | .closeEvt => true
  | _ => false

/-- Events of machine B that neither stop the session nor close a socket
(any of those closes or stops also disables the direct-send path, after
which caller audio is queued again). -/
def nonClosingEB : EB → Bool
  | .stopEvt => false
  | .twClose => false
  | .aiCloseEvt => false
  | _ => true

/- ========================= Helper lemmas ========================= -/

theorem updown_id (x : List Int) : down24kTo8k (up8kTo24k x) = x := by
  induction x with
  | nil => rfl
  | cons a rest ih => simpa [up8kTo24k, down24kTo8k] using ih

theorem decodeMuLawBuffer_eq_map (bs : List Nat) :
    decodeMuLawBuffer bs = bs.map fun b => toInt16 (mulawDecode b) := by
  induction bs with
  | nil => rfl
  | cons b rest ih => simp [decodeMuLawBuffer, ih]

theorem jsSplitL_no_sep (sep : Char) (l : List Char) (h : sep ∉ l) :
    jsSplitL sep l = [l] := by
  induction l with
  | nil => rfl
  | cons c rest ih =>
    have hc : ¬ c = sep := fun hh => h (hh ▸ List.mem_cons_self c rest)
    have hr : sep ∉ rest := fun hh => h (List.mem_cons_of_mem c hh)
    simp [jsSplitL, hc, ih hr]

theorem ensureMany_not_opened (s : GState) (n : Nat)
    (h : s.conn ≠ some ConnState.opened) : (ensureMany s n).2 = n := by
  induction n generalizing s with
  | zero => rfl
  | succ n ih =>
    have hif : ¬ s.conn = some ConnState.opened := h
    simp only [ensureMany, ensureGlobalAI, if_neg hif]
    have := ih { conn := some ConnState.connecting, aiReadyG := false } (by simp)
    simp [this, Nat.add_comm]

/- ============================ C3 ============================ -/

/-- C3.  The claim says decoding each μ-law byte and re-encoding it
reproduces the byte (`linear2ulaw (mulawDecode b) = b`), and that the
matched up/down sampling round-trip is the identity.  The second half
holds, but the first fails: the decoder uses
`((mantissa << 4) + 8) << (exponent + 3)` instead of the standard
`((mantissa << 3) + BIAS) << exponent`, so byte 0xFF decodes to -68 and
re-encodes to 0x73, both standalone and through the frame pipeline. -/
theorem c3_roundtrip_broken :
    mulawDecode 0xFF = -68 ∧
    linear2ulaw (mulawDecode 0xFF) = 0x73 ∧
    (0x73 : Nat) ≠ 0xFF ∧
    encodeMuLawBufferFromPCM (decodeMuLawBuffer [0xFF]) = [0x73] ∧
    (∀ x : List Int, down24kTo8k (up8kTo24k x) = x) :=
  ⟨by decide, by decide, by decide, by decide, updown_id⟩

/- ============================ C10 ============================ -/

/-- C10.  decodeMuLawBuffer yields one sample per byte, each the
mulawDecode value wrapped to 16-bit two's complement by the Int16Array
store; for byte 0x00 the decoder computes -253820, outside
[-32768, 32767], and the stored sample 8324 differs from it by
4 * 2^16. -/
theorem c10_decode_overflow_wraps :
    (∀ bs : List Nat, decodeMuLawBuffer bs = bs.map fun b => toInt16 (mulawDecode b)) ∧
    (∀ bs : List Nat, (decodeMuLawBuffer bs).length = bs.length) ∧
    mulawDecode 0 = -253820 ∧
    ((-253820 : Int) < -32768) ∧
    decodeMuLawBuffer [0] = [8324] ∧
    toInt16 (mulawDecode 0) - mulawDecode 0 = 4 * 65536 :=
  ⟨decodeMuLawBuffer_eq_map,
   fun bs => by rw [decodeMuLawBuffer_eq_map]; exact List.length_map _ _,
   by decide, by decide, by decide, by decide⟩

/- ============================ C2 ============================ -/

/-- C2.  The claim says no `media` frame is ever sent while the stream
identifier is unknown and every outbound frame carries a non-empty one.
The cited handlers have no such guard: in the first server.mjs variant an
AI audio delta arriving before the Twilio `start` event is sent with the
still-empty streamSid, and in the second variant outbound media frames
never carry a streamSid field at all. -/
theorem c2_unguarded_media_frames :
    (runV1 initV1 [EV1.aiAudio [0, 0, 0]]).2
        = [OV1.audioFrame "" (encodeMuLawBufferFromPCM (down24kTo8k [0, 0, 0]))] ∧
    (runV2 initV2 [EV2.start "CA1", EV2.aiAudio [0, 0, 0]]).2
        = [OV2.mediaNoSid (encodeMuLawBufferFromPCM (down24kTo8k [0, 0, 0]))] :=
  ⟨by decide, by decide⟩

/- ============================ C7 ============================ -/

/-- C7 counterexample.  The claim says ensureGlobalAI does nothing while a
connection attempt is in flight, and opens no new attempt during the
backoff window after a close.  The code only short-circuits on an OPEN
socket: invoked with a CONNECTING socket it launches a duplicate attempt,
and invoked with a CLOSED socket during the backoff window it reconnects
immediately. -/
theorem c7_counterexample :
    ensureGlobalAI { conn := some ConnState.connecting, aiReadyG := true }
        = ({ conn := some ConnState.connecting, aiReadyG := false }, [GOut.connectAttempt]) ∧
    ensureGlobalAI { conn := some ConnState.closed, aiReadyG := false }
        = ({ conn := some ConnState.connecting, aiReadyG := false }, [GOut.connectAttempt]) :=
  ⟨by decide, by decide⟩

/-- C7 amended.  ensureGlobalAI is a no-op only when the global socket is
OPEN; in every other state — including an in-flight CONNECTING attempt and
the window after a close — each invocation immediately starts a fresh
connection attempt (n invocations start n attempts).  The 1-second backoff
only governs when the close handler itself re-invokes ensureGlobalAI. -/
theorem c7_amended :
    (∀ s : GState, s.conn = some ConnState.opened → ensureGlobalAI s = (s, [])) ∧
    (∀ (s : GState) (n : Nat), s.conn ≠ some ConnState.opened → (ensureMany s n).2 = n) ∧
    (∀ s : GState, (onGlobalClose s).2 = 1000) :=
  ⟨fun s h => by simp [ensureGlobalAI, h],
   fun s n h => ensureMany_not_opened s n h,
   fun s => rfl⟩

theorem c7_witness :
    ensureGlobalAI { conn := some ConnState.opened, aiReadyG := true }
        = ({ conn := some ConnState.opened, aiReadyG := true }, []) ∧
    (ensureMany { conn := some ConnState.closed, aiReadyG := false } 3).2 = 3 :=
  ⟨c7_amended.1 _ rfl, c7_amended.2.1 _ 3 (by decide)⟩

/- ============================ C9 ============================ -/

/-- C9 counterexample.  The claim says a LEAD segment with no `=` (here
` urgent`) contributes nothing to the record; in fact `pair.split('=')`
yields a truthy key, so the segment is stored as `urgent ↦ ""`. -/
theorem c9_counterexample :
    ¬ parseLeadLine "LEAD name=Jane; urgent; phone=1" "urgent" = none := by decide

/-- C9 amended.  A LEAD segment with no `=` is not skipped: its trimmed,
lower-cased text becomes a key mapped to the empty string, while the
well-formed segments of the same line still parse normally and no error is
raised; only segments whose raw text is empty are skipped. -/
theorem c9_amended :
    (parseLeadLine "LEAD name=Jane; urgent; phone=1" "name" = some "Jane" ∧
     parseLeadLine "LEAD name=Jane; urgent; phone=1" "urgent" = some "" ∧
     parseLeadLine "LEAD name=Jane; urgent; phone=1" "phone" = some "1") ∧
    (∀ (m : LeadMap) (seg : String), seg ≠ "" → '=' ∉ seg.data →
      leadSegStep m seg = leadSet m (jsLower (jsTrim seg)) "") ∧
    (∀ m : LeadMap, leadSegStep m "" = m) := by
  refine ⟨⟨by decide, by decide, by decide⟩, ?_, ?_⟩
  · intro m seg hne hno
    have hsplit : jsSplit seg '=' = [seg] := by
      simp [jsSplit, jsSplitL_no_sep '=' seg.data hno]
    have htr : jsTrim "" = "" := by decide
    simp [leadSegStep, hsplit, hne, htr]
  · intro m
    have hsplit : jsSplit "" '=' = [""] := by decide
    simp [leadSegStep, hsplit]

theorem c9_witness :
    leadSegStep leadEmpty " urgent" "urgent" = some "" ∧
    leadSegStep leadEmpty "" "zip" = none :=
  ⟨by rw [c9_amended.2.1 leadEmpty " urgent" (by decide) (by decide)]; decide,
   by rw [c9_amended.2.2 leadEmpty]; rfl⟩

/- ============================ C4 ============================ -/

theorem runV1_transfer_repeat (k : Nat) : ∀ s : SV1, s.stopped = false → s.callSid ≠ "" →
    runV1 s (List.replicate k (EV1.aiText "TRANSFER"))
      = (s, List.replicate k (OV1.redirectTransfer s.callSid)) := by
  induction k with
  | zero => intro s _ _; rfl
  | succ k ih =>
    intro s h hc
    have hline : isTransferLine (jsTrim "TRANSFER") = true := by decide
    have hstep : stepV1 s (EV1.aiText "TRANSFER") = (s, [OV1.redirectTransfer s.callSid]) := by
      simp [stepV1, h, hline, hc]
    simp [List.replicate, runV1, hstep, ih s h hc]

/-- C4 counterexample.  The claim says a second `TRANSFER` line in the same
session causes no further redirect invocation (exactly one per session).
The handler has no once-only latch: two consecutive `TRANSFER` lines after
`start` produce two redirect invocations, not one. -/
theorem c4_counterexample :
    ¬ ((runV1 initV1
          [EV1.start "CA123" "MS1", EV1.aiText "TRANSFER", EV1.aiText "TRANSFER"]).2.countP
            isTransferOut = 1) := by decide

/-- C4 amended.  Every `TRANSFER` line (exact match after trimming,
case-insensitive) processed while the call identifier is known and the
session is not stopped triggers one invocation of the call-redirect
interface: k such lines trigger exactly k invocations — there is no
exactly-once latch. -/
theorem c4_amended (cs ss : String) (h : cs ≠ "") (k : Nat) :
    (runV1 initV1 (EV1.start cs ss :: List.replicate k (EV1.aiText "TRANSFER"))).2
      = List.replicate k (OV1.redirectTransfer cs) := by
  have hstart : stepV1 initV1 (EV1.start cs ss)
      = ({ initV1 with callSid := cs, streamSid := ss, tracked := true }, []) := by
    simp [stepV1, initV1]
  have hrep := runV1_transfer_repeat k
      ({ initV1 with callSid := cs, streamSid := ss, tracked := true }) rfl h
  simp [runV1, hstart, hrep]

theorem c4_witness :
    (runV1 initV1 (EV1.start "CA123" "MS1" :: List.replicate 2 (EV1.aiText "TRANSFER"))).2
      = List.replicate 2 (OV1.redirectTransfer "CA123") :=
  c4_amended "CA123" "MS1" (by decide) 2

/- ============================ C1 ============================ -/

/-- Reachability invariant of machine B: while the session is live (stream
identifier known, not stopped, Twilio socket open) and no real audio has
been sent yet, the keepalive interval is armed.  Every transition that
disarms the interval also falsifies one of the other conjuncts. -/
def kaInv (s : SB) : Prop :=
  s.streamSid ≠ "" → s.stopped = false → s.twOpen = true →
    s.sentRealAudio = false → s.keepAlive = true

theorem kaInv_stepB (s : SB) (e : EB) (h : kaInv s) : kaInv (stepB s e).1 := by
  cases e <;> simp only [stepB] <;> (repeat' split) <;>
    intro h1 h2 h3 h4 <;>
    first
      | rfl
      | exact h h1 h2 h3 h4
      | exact Bool.noConfusion h2
      | exact Bool.noConfusion h3
      | exact Bool.noConfusion h4

theorem sent_stepB (s : SB) (e : EB) (h : kaInv s) :
    (stepB s e).1.sentRealAudio = (s.sentRealAudio || (stepB s e).2.any isRealAudioB) := by
  cases e with
  | aiAudio pcm24 =>
    by_cases hg : (!s.stopped && s.streamSid != "" && s.twOpen) = true
    · by_cases hs : (!s.sentRealAudio && s.keepAlive) = true
      · simp [stepB, hg, hs, isRealAudioB]
      · have hsent : s.sentRealAudio = true := by
          by_contra hns
          have hns' : s.sentRealAudio = false := by simpa using hns
          have hg' := hg
          simp only [Bool.and_eq_true, Bool.not_eq_true', bne_iff_ne, ne_eq] at hg'
          have hk : s.keepAlive = true := h hg'.1.2 hg'.1.1 hg'.2 hns'
          simp [hns', hk] at hs
        simp [stepB, hg, hs, hsent, isRealAudioB]
    · simp [stepB, hg]
  | _ =>
    simp only [stepB]
    repeat' split
    all_goals simp_all [isRealAudioB]

theorem scan_of_no_ka (l : List OB) : ∀ b : Bool, (∀ o ∈ l, isKeepaliveB o = false) →
    noKeepaliveAfterAudio b l = true := by
  induction l with
  | nil => intro b _; rfl
  | cons o rest ih =>
    intro b hall
    have ho := hall o (List.mem_cons_self o rest)
    simp only [noKeepaliveAfterAudio, ho, Bool.and_false, Bool.false_eq_true, if_false]
    exact ih _ fun o' ho' => hall o' (List.mem_cons_of_mem o ho')

theorem flush_all_no_ka (l : List (List Int)) :
    (l.flatMap fun c => [OB.aiAppend c, OB.aiCommit]).all (fun o => !isKeepaliveB o) = true := by
  induction l with
  | nil => rfl
  | cons c rest ih => simp [isKeepaliveB, ih]

theorem no_ka_all_stepB (s : SB) (e : EB) (hne : e ≠ EB.tick) :
    (stepB s e).2.all (fun o => !isKeepaliveB o) = true := by
  cases e <;>
    first
      | exact absurd rfl hne
      | (simp only [stepB]
         repeat' split
         all_goals simp [List.all_append, flush_all_no_ka, isKeepaliveB])

theorem scan_nontick (s : SB) (e : EB) (b : Bool) (hne : e ≠ EB.tick) :
    noKeepaliveAfterAudio b (stepB s e).2 = true :=
  scan_of_no_ka _ b fun o ho => by
    have hall := List.all_eq_true.1 (no_ka_all_stepB s e hne) o ho
    simpa using hall

theorem scan_stepB (s : SB) (e : EB) :
    noKeepaliveAfterAudio s.sentRealAudio (stepB s e).2 = true := by
  cases e with
  | tick =>
    simp only [stepB]
    split
    · rename_i hcond
      have hsent : s.sentRealAudio = false := by
        simp only [Bool.and_eq_true, Bool.not_eq_true'] at hcond
        exact hcond.2
      simp [noKeepaliveAfterAudio, hsent, isKeepaliveB, isRealAudioB]
    · rfl
  | start cs ss => exact scan_nontick s _ _ (by simp)
  | media p => exact scan_nontick s _ _ (by simp)
  | stopEvt => exact scan_nontick s _ _ (by simp)
  | twClose => exact scan_nontick s _ _ (by simp)
  | aiOpenEvt => exact scan_nontick s _ _ (by simp)
  | aiCloseEvt => exact scan_nontick s _ _ (by simp)
  | aiAudio pcm24 => exact scan_nontick s _ _ (by simp)
  | aiText delta => exact scan_nontick s _ _ (by simp)

theorem scan_append (x : List OB) : ∀ (b : Bool) (y : List OB),
    noKeepaliveAfterAudio b (x ++ y)
      = (noKeepaliveAfterAudio b x
          && noKeepaliveAfterAudio (b || x.any isRealAudioB) y) := by
  induction x with
  | nil => intro b y; simp [noKeepaliveAfterAudio]
  | cons o x ih =>
    intro b y
    by_cases hb : (b && isKeepaliveB o) = true
    · simp [noKeepaliveAfterAudio, hb]
    · have hb' : (b && isKeepaliveB o) = false := by simpa using hb
      simp [noKeepaliveAfterAudio, hb', ih, Bool.or_assoc]

theorem runB_scan (es : List EB) : ∀ s : SB, kaInv s →
    noKeepaliveAfterAudio s.sentRealAudio (runB s es).2 = true := by
  induction es with
  | nil => intro s _; rfl
  | cons e es ih =>
    intro s h
    rcases hSE : stepB s e with ⟨s', out⟩
    have hrun : (runB s (e :: es)).2 = out ++ (runB s' es).2 := by
      simp [runB, hSE]
    rw [hrun, scan_append]
    have h1 : noKeepaliveAfterAudio s.sentRealAudio out = true := by
      have := scan_stepB s e; rw [hSE] at this; exact this
    have h2 : (s.sentRealAudio || out.any isRealAudioB) = s'.sentRealAudio := by
      have := sent_stepB s e h; rw [hSE] at this; exact this.symm
    have h3 : kaInv s' := by
      have := kaInv_stepB s e h; rw [hSE] at this; exact this
    rw [h1, h2, ih s' h3]
    rfl

/-- C1.  For every per-call event sequence of the part_003 session, the
output stream never contains a keepalive silence frame at or after the
first real AI audio frame: the first audio-output event that passes the
send guard cancels the keepalive interval and sets sentRealAudio, the flag
is never cleared, and the interval callback checks it before sending. -/
theorem c1_keepalive_stops_after_first_audio (es : List EB) :
    noKeepaliveAfterAudio false (runB initB es).2 = true :=
  runB_scan es initB fun h1 _ _ _ => absurd rfl h1

/- ============================ C6 ============================ -/

theorem runB_append (xs ys : List EB) : ∀ s : SB,
    runB s (xs ++ ys)
      = ((runB (runB s xs).1 ys).1, (runB s xs).2 ++ (runB (runB s xs).1 ys).2) := by
  induction xs with
  | nil => intro s; simp [runB]
  | cons e xs ih =>
    intro s
    rcases hSE : stepB s e with ⟨s', o⟩
    simp [runB, hSE, ih, List.append_assoc]

theorem runB_queue (ms : List (List Nat)) : ∀ s : SB, s.aiReady = false →
    runB s (ms.map EB.media)
      = ({ s with pending := s.pending ++ ms.map transcodeIn }, []) := by
  induction ms with
  | nil => intro s _; simp [runB]
  | cons m ms ih =>
    intro s h
    have hstep : stepB s (EB.media m)
        = ({ s with pending := s.pending ++ [transcodeIn m] }, []) := by
      simp [stepB, h]
    have hih := ih ({ s with pending := s.pending ++ [transcodeIn m] }) h
    simp [runB, hstep, hih, List.append_assoc]

theorem stepB_open (s : SB) (h : s.stopped = false) :
    stepB s EB.aiOpenEvt
      = ({ s with aiReady := true, aiOpen := true, pending := [] },
         OB.aiConfig :: OB.aiGreeting ::
           s.pending.flatMap fun c => [OB.aiAppend c, OB.aiCommit]) := by
  by_cases hp : s.pending = [] <;> simp [stepB, h, hp]

theorem runB_direct (ns : List (List Nat)) : ∀ s : SB,
    s.aiReady = true → s.aiOpen = true → s.stopped = false →
    runB s (ns.map EB.media)
      = (s, ns.flatMap fun n => [OB.aiAppend (transcodeIn n), OB.aiCommit]) := by
  induction ns with
  | nil => intro s _ _ _; rfl
  | cons n ns ih =>
    intro s h1 h2 h3
    have hstep : stepB s (EB.media n) = (s, [OB.aiAppend (transcodeIn n), OB.aiCommit]) := by
      simp [stepB, h1, h2, h3]
    simp [runB, hstep, ih s h1 h2 h3]

theorem appendsOf_append (x y : List OB) :
    appendsOf (x ++ y) = appendsOf x ++ appendsOf y := by
  simp [appendsOf]

theorem appendsOf_flush (l : List (List Int)) :
    appendsOf (l.flatMap fun c => [OB.aiAppend c, OB.aiCommit]) = l := by
  induction l with
  | nil => rfl
  | cons c rest ih => simpa [appendsOf] using ih

theorem appendsOf_direct (ns : List (List Nat)) :
    appendsOf (ns.flatMap fun n => [OB.aiAppend (transcodeIn n), OB.aiCommit])
      = ns.map transcodeIn := by
  induction ns with
  | nil => rfl
  | cons n ns ih => simpa [appendsOf] using ih

theorem appendsOf_cons_config (l : List OB) : appendsOf (OB.aiConfig :: l) = appendsOf l := by
  simp [appendsOf]

theorem appendsOf_cons_greeting (l : List OB) :
    appendsOf (OB.aiGreeting :: l) = appendsOf l := by
  simp [appendsOf]

theorem stepB_keeps_ready (s : SB) (e : EB) (hp : s.pending = []) (h1 : s.aiReady = true)
    (h2 : s.aiOpen = true) (h3 : s.stopped = false) (hnc : nonClosingEB e = true) :
    (stepB s e).1.pending = [] ∧ (stepB s e).1.aiReady = true ∧
    (stepB s e).1.aiOpen = true ∧ (stepB s e).1.stopped = false := by
  cases e <;> simp only [stepB] <;> (repeat' split) <;> simp_all [nonClosingEB]

theorem runB_stays_empty (es : List EB) : ∀ s : SB, s.pending = [] → s.aiReady = true →
    s.aiOpen = true → s.stopped = false → es.all nonClosingEB = true →
    (runB s es).1.pending = [] := by
  induction es with
  | nil => intro s hp _ _ _ _; exact hp
  | cons e es ih =>
    intro s hp h1 h2 h3 hall
    rw [List.all_cons, Bool.and_eq_true] at hall
    obtain ⟨hp', h1', h2', h3'⟩ := stepB_keeps_ready s e hp h1 h2 h3 hall.1
    rcases hSE : stepB s e with ⟨s', o⟩
    rw [hSE] at hp' h1' h2' h3'
    have hst : (runB s (e :: es)).1 = (runB s' es).1 := by simp [runB, hSE]
    rw [hst]
    exact ih s' hp' h1' h2' h3' hall.2

/-- C6 counterexample.  The claim says that after the flush on AI `open`
the pending queue is empty and never grows again for that session.  After
the AI socket closes again, a later caller-audio frame fails the
direct-send guard and is queued once more, so the queue does grow again. -/
theorem c6_counterexample :
    ¬ (runB initB [EB.media [5], EB.aiOpenEvt, EB.aiCloseEvt, EB.media [7]]).1.pending
        = [] := by decide

/-- C6 amended.  Frames arriving before AI readiness are queued in arrival
order and flushed, on AI `open`, to the AI backend in exactly that order
before any post-ready audio; immediately after the flush the queue is
empty, and it stays empty as long as the session sees no stop, no Twilio
socket close and no AI socket close (after any of those, a media frame is
queued again, which is what the counterexample exhibits). -/
theorem c6_amended :
    (∀ ms ns : List (List Nat),
        appendsOf (runB initB (ms.map EB.media ++ EB.aiOpenEvt :: ns.map EB.media)).2
            = (ms ++ ns).map transcodeIn ∧
        (runB initB (ms.map EB.media ++ EB.aiOpenEvt :: ns.map EB.media)).1.pending = []) ∧
    (∀ (s : SB) (es : List EB), s.pending = [] → s.aiReady = true → s.aiOpen = true →
        s.stopped = false → es.all nonClosingEB = true → (runB s es).1.pending = []) := by
  constructor
  · intro ms ns
    have hq : runB initB (ms.map EB.media)
        = ({ initB with pending := ms.map transcodeIn }, []) := by
      simpa using runB_queue ms initB rfl
    have hopen := stepB_open ({ initB with pending := ms.map transcodeIn }) rfl
    have hdir := runB_direct ns
        ({ { initB with pending := ms.map transcodeIn } with
            aiReady := true, aiOpen := true, pending := [] }) rfl rfl rfl
    have hsplit := runB_append (ms.map EB.media) (EB.aiOpenEvt :: ns.map EB.media) initB
    rw [hq] at hsplit
    have hrun2 : runB ({ initB with pending := ms.map transcodeIn })
          (EB.aiOpenEvt :: ns.map EB.media)
        = ({ { initB with pending := ms.map transcodeIn } with
              aiReady := true, aiOpen := true, pending := [] },
           (OB.aiConfig :: OB.aiGreeting ::
              (ms.map transcodeIn).flatMap fun c => [OB.aiAppend c, OB.aiCommit])
             ++ ns.flatMap fun n => [OB.aiAppend (transcodeIn n), OB.aiCommit]) := by
      simp [runB, hopen, hdir]
    rw [hrun2] at hsplit
    rw [hsplit]
    constructor
    · simp only [List.nil_append, appendsOf_append, appendsOf_cons_config,
        appendsOf_cons_greeting, appendsOf_flush, appendsOf_direct, List.map_append]
    · rfl
  · intro s es hp h1 h2 h3 hall
    exact runB_stays_empty es s hp h1 h2 h3 hall

theorem c6_witness :
    appendsOf (runB initB ([[1], [2]].map EB.media
          ++ EB.aiOpenEvt :: [[3]].map EB.media)).2
        = [[1], [2], [3]].map transcodeIn ∧
    (runB { initB with aiReady := true, aiOpen := true } [EB.media [3], EB.tick]).1.pending
        = [] :=
  ⟨(c6_amended.1 [[1], [2]] [[3]]).1,
   c6_amended.2 _ [EB.media [3], EB.tick] rfl rfl rfl rfl (by decide)⟩

/- ============================ C5 ============================ -/

theorem stepV2_dead (s : SV2) (e : EV2) (h1 : s.entry = none) (h2 : s.aiClosed = true)
    (hns : isStartEv e = false) :
    (stepV2 s e).1.entry = none ∧ (stepV2 s e).1.aiClosed = true ∧
    (stepV2 s e).2.countP isFinalizeOut = 0 ∧ (stepV2 s e).2.countP isAiCloseOut = 0 := by
  cases e <;>
    simp_all [stepV2, termV2, isStartEv, isFinalizeOut, isAiCloseOut,
      List.countP_cons, List.countP_nil]

theorem countsV2_dead (es : List EV2) : ∀ s : SV2, s.entry = none → s.aiClosed = true →
    es.all (fun e => !isStartEv e) = true →
    (runV2 s es).2.countP isFinalizeOut = 0 ∧ (runV2 s es).2.countP isAiCloseOut = 0 := by
  induction es with
  | nil => intro s _ _ _; exact ⟨rfl, rfl⟩
  | cons e es ih =>
    intro s h1 h2 hall
    rw [List.all_cons, Bool.and_eq_true] at hall
    have hns : isStartEv e = false := by simpa using hall.1
    obtain ⟨h1', h2', hc1, hc2⟩ := stepV2_dead s e h1 h2 hns
    rcases hSE : stepV2 s e with ⟨s', o⟩
    rw [hSE] at h1' h2' hc1 hc2
    have hrun : (runV2 s (e :: es)).2 = o ++ (runV2 s' es).2 := by simp [runV2, hSE]
    obtain ⟨d1, d2⟩ := ih s' h1' h2' hall.2
    rw [hrun]
    simp [List.countP_append, hc1, hc2, d1, d2]

theorem stepV2_aiText_facts (s : SV2) (d : String) (cs : String) (hent : s.entry = some cs) :
    (stepV2 s (EV2.aiText d)).1.entry = s.entry ∧
    (stepV2 s (EV2.aiText d)).1.aiClosed = s.aiClosed ∧
    ((s.callsM cs).isSome = true → ((stepV2 s (EV2.aiText d)).1.callsM cs).isSome = true) ∧
    (stepV2 s (EV2.aiText d)).2.countP isFinalizeOut = 0 ∧
    (stepV2 s (EV2.aiText d)).2.countP isAiCloseOut = 0 := by
  simp only [stepV2, hent]
  repeat' split <;>
    simp_all [isFinalizeOut, isAiCloseOut, List.countP_cons, List.countP_nil]

theorem countsV2_active (es : List EV2) : ∀ (s : SV2) (cs : String), s.entry = some cs →
    cs ≠ "" → (s.callsM cs).isSome = true → s.aiClosed = false →
    es.all (fun e => !isStartEv e) = true → es.any isTermEv = true →
    (runV2 s es).2.countP isFinalizeOut = 1 ∧ (runV2 s es).2.countP isAiCloseOut = 1 := by
  induction es with
  | nil => intro s cs _ _ _ _ _ hterm; simp at hterm
  | cons e es ih =>
    intro s cs hent hcs hsome hac hall hterm
    rw [List.all_cons, Bool.and_eq_true] at hall
    cases e with
    | start c => simp [isStartEv] at hall
    | stopEvt =>
      have hstep : stepV2 s EV2.stopEvt
          = ({ s with entry := none, aiClosed := true },
             [OV2.finalizeNotify cs, OV2.aiCloseFx]) := by
        simp [stepV2, termV2, hent, hcs, hsome, hac]
      obtain ⟨d1, d2⟩ := countsV2_dead es ({ s with entry := none, aiClosed := true })
        rfl rfl hall.2
      have hrun : (runV2 s (EV2.stopEvt :: es)).2
          = [OV2.finalizeNotify cs, OV2.aiCloseFx]
              ++ (runV2 ({ s with entry := none, aiClosed := true }) es).2 := by
        simp [runV2, hstep]
      rw [hrun]
      simp [List.countP_append, List.countP_cons, d1, d2, isFinalizeOut, isAiCloseOut]
    | closeEvt =>
      have hstep : stepV2 s EV2.closeEvt
          = ({ s with entry := none, aiClosed := true },
             [OV2.finalizeNotify cs, OV2.aiCloseFx]) := by
        simp [stepV2, termV2, hent, hcs, hsome, hac]
      obtain ⟨d1, d2⟩ := countsV2_dead es ({ s with entry := none, aiClosed := true })
        rfl rfl hall.2
      have hrun : (runV2 s (EV2.closeEvt :: es)).2
          = [OV2.finalizeNotify cs, OV2.aiCloseFx]
              ++ (runV2 ({ s with entry := none, aiClosed := true }) es).2 := by
        simp [runV2, hstep]
      rw [hrun]
      simp [List.countP_append, List.countP_cons, d1, d2, isFinalizeOut, isAiCloseOut]
    | media p =>
      have hterm' : es.any isTermEv = true := by simpa [isTermEv] using hterm
      have hrec := ih s cs hent hcs hsome hac hall.2 hterm'
      have hrun : (runV2 s (EV2.media p :: es)).2
          = [OV2.aiAppend (transcodeIn p), OV2.aiCommit] ++ (runV2 s es).2 := by
        simp [runV2, stepV2]
      rw [hrun]
      simp [List.countP_append, List.countP_cons, hrec.1, hrec.2,
        isFinalizeOut, isAiCloseOut]
    | aiAudio pcm24 =>
      have hterm' : es.any isTermEv = true := by simpa [isTermEv] using hterm
      have hrec := ih s cs hent hcs hsome hac hall.2 hterm'
      have hrun : (runV2 s (EV2.aiAudio pcm24 :: es)).2
          = [OV2.mediaNoSid (encodeMuLawBufferFromPCM (down24kTo8k pcm24))]
              ++ (runV2 s es).2 := by
        simp [runV2, stepV2]
      rw [hrun]
      simp [List.countP_append, List.countP_cons, hrec.1, hrec.2,
        isFinalizeOut, isAiCloseOut]
    | aiText d =>
      have hterm' : es.any isTermEv = true := by simpa [isTermEv] using hterm
      obtain ⟨f1, f2, f3, f4, f5⟩ := stepV2_aiText_facts s d cs hent
      rcases hSE : stepV2 s (EV2.aiText d) with ⟨s', o⟩
      rw [hSE] at f1 f2 f3 f4 f5
      have hrec := ih s' cs (by rw [f1, hent]) hcs (f3 hsome) (by rw [f2, hac])
        hall.2 hterm'
      have hrun : (runV2 s (EV2.aiText d :: es)).2 = o ++ (runV2 s' es).2 := by
        simp [runV2, hSE]
      rw [hrun]
      simp [List.countP_append, f4, f5, hrec.1, hrec.2]

/-- C5.  Session termination in the second server.mjs variant is
idempotent: for a session started with a known call identifier, any
sequence of further events containing at least one stop or socket-close
(possibly both, or either one repeated) yields exactly one
finalize-and-notify invocation and exactly one effective close of the
per-call AI connection.  The first termination deletes the stream entry,
so a second stop or close finds no call identifier and does nothing, and
closing an already-closed socket has no effect. -/
theorem c5_termination_idempotent (cs : String) (es : List EV2) (hcs : cs ≠ "")
    (hall : es.all (fun e => !isStartEv e) = true) (hterm : es.any isTermEv = true) :
    (runV2 initV2 (EV2.start cs :: es)).2.countP isFinalizeOut = 1 ∧
    (runV2 initV2 (EV2.start cs :: es)).2.countP isAiCloseOut = 1 := by
  rcases hSE : stepV2 initV2 (EV2.start cs) with ⟨s1, o1⟩
  have ho1 : o1 = [] := by
    have h : (stepV2 initV2 (EV2.start cs)).2 = [] := by simp [stepV2, hcs]
    rw [hSE] at h; exact h
  have hent : s1.entry = some cs := by
    have h : (stepV2 initV2 (EV2.start cs)).1.entry = some cs := by simp [stepV2, hcs]
    rw [hSE] at h; exact h
  have hsome : (s1.callsM cs).isSome = true := by
    have h : ((stepV2 initV2 (EV2.start cs)).1.callsM cs).isSome = true := by
      simp [stepV2, hcs, initV2]
    rw [hSE] at h; exact h
  have hac : s1.aiClosed = false := by
    have h : (stepV2 initV2 (EV2.start cs)).1.aiClosed = false := by
      simp [stepV2, hcs, initV2]
    rw [hSE] at h; exact h
  have hmain := countsV2_active es s1 cs hent hcs hsome hac hall hterm
  have hrun : (runV2 initV2 (EV2.start cs :: es)).2 = o1 ++ (runV2 s1 es).2 := by
    simp [runV2, hSE]
  rw [hrun, ho1]
  simpa using hmain

theorem c5_witness :
    (runV2 initV2 [EV2.start "CA1", EV2.stopEvt, EV2.closeEvt]).2.countP isFinalizeOut = 1 ∧
    (runV2 initV2 [EV2.start "CA1", EV2.stopEvt, EV2.closeEvt]).2.countP isAiCloseOut = 1 :=
  c5_termination_idempotent "CA1" [EV2.stopEvt, EV2.closeEvt] (by decide) (by decide)
    (by decide)

/- ============================ C8 ============================ -/

/-- C8.  Processing `LEAD name=Jane Doe; phone=555-0100; priority=true`
then `LEAD service=HVAC` for the same call yields the merged record with
name, phone and service fields and the session priority flag true; in
general the object-spread merge lets later values for the same
lower-cased, trimmed key overwrite earlier ones, and a priority flag once
set true is never cleared by a later LEAD update lacking it. -/
theorem c8_lead_merge (old found : LeadMap) (k v : String) (st : CallSt) (line : String)
    (hov : found k = some v) (hpr : st.priority = true) :
    (leadOf (runV2 initV2 [EV2.start "CA1",
        EV2.aiText "LEAD name=Jane Doe; phone=555-0100; priority=true",
        EV2.aiText "LEAD service=HVAC"]).1 "CA1" "name" = some "Jane Doe" ∧
     leadOf (runV2 initV2 [EV2.start "CA1",
        EV2.aiText "LEAD name=Jane Doe; phone=555-0100; priority=true",
        EV2.aiText "LEAD service=HVAC"]).1 "CA1" "phone" = some "555-0100" ∧
     leadOf (runV2 initV2 [EV2.start "CA1",
        EV2.aiText "LEAD name=Jane Doe; phone=555-0100; priority=true",
        EV2.aiText "LEAD service=HVAC"]).1 "CA1" "service" = some "HVAC" ∧
     prioOf (runV2 initV2 [EV2.start "CA1",
        EV2.aiText "LEAD name=Jane Doe; phone=555-0100; priority=true",
        EV2.aiText "LEAD service=HVAC"]).1 "CA1" = true) ∧
    leadMerge old found k = some v ∧
    (applyLeadV2 st line).priority = true := by
  refine ⟨⟨by decide, by decide, by decide, by decide⟩, ?_, ?_⟩
  · simp [leadMerge, hov]
  · simp only [applyLeadV2]
    split <;> simp [hpr]

theorem c8_witness :
    (leadOf (runV2 initV2 [EV2.start "CA1",
        EV2.aiText "LEAD name=Jane Doe; phone=555-0100; priority=true",
        EV2.aiText "LEAD service=HVAC"]).1 "CA1" "service" = some "HVAC") ∧
    leadMerge leadEmpty (leadSet leadEmpty "service" "HVAC") "service" = some "HVAC" ∧
    (applyLeadV2 { lead := leadEmpty, priority := true } "LEAD x=1").priority = true :=
  ⟨(c8_lead_merge leadEmpty (leadSet leadEmpty "service" "HVAC") "service" "HVAC"
      { lead := leadEmpty, priority := true } "LEAD x=1" (by decide) rfl).1.2.2.1,
   (c8_lead_merge leadEmpty (leadSet leadEmpty "service" "HVAC") "service" "HVAC"
      { lead := leadEmpty, priority := true } "LEAD x=1" (by decide) rfl).2.1,
   (c8_lead_merge leadEmpty (leadSet leadEmpty "service" "HVAC") "service" "HVAC"
      { lead := leadEmpty, priority := true } "LEAD x=1" (by decide) rfl).2.2⟩
